import Mathlib

/-!
Shallow embedding of `hotwords.py`, a pipeline that discovers hotlist
channels, fetches per-channel trending data, and extracts keywords from the
combined item text through an LLM call.

Modelling conventions:
* JSON values decoded by `response.json()` are the inductive type `Json`.
  JSON numbers are modelled as integers; no claim here depends on
  non-integral numbers.
* A `requests` call is summarised by `HttpResult`: `failure` stands for any
  `requests.RequestException` (connection or timeout error, the `HTTPError`
  thrown by `raise_for_status` on a non-2xx status, and the JSON decode
  error raised by `response.json()` on a malformed body, which subclasses
  `RequestException` in current `requests`), and `success body` for a 2xx
  response whose body decoded to `body`.
* Python exceptions that the code does not catch are the `Except` error
  channel, with `PyError` naming the exception class that escapes.
* The LLM service is the oracle `LlmOutcome`: `exn` for any exception
  raised while configuring or calling the model, `noText` for a falsy
  response or one without a `text` attribute, and `text s` for a response
  with text `s`.
* Logging is an unobserved side effect and is not modelled; the theorems
  are about return values and the emitted mapping.
* Python strings are `String`; `pyStrip`, `splitCommaL` and friends model
  `str.strip` and `str.split(",")` over the character list.
-/

inductive Json where
  | null : Json
  | bool (b : Bool) : Json
  | num (n : Int) : Json
  | str (s : String) : Json
  | arr (elems : List Json) : Json
  | obj (fields : List (String × Json)) : Json
deriving Repr

mutual

def Json.beq : Json → Json → Bool
  | .null, .null => true
  | .bool a, .bool b => a = b
  | .num a, .num b => a = b
  | .str a, .str b => a = b
  | .arr xs, .arr ys => Json.beqList xs ys
  | .obj xs, .obj ys => Json.beqObj xs ys
  | _, _ => false

def Json.beqList : List Json → List Json → Bool
  | [], [] => true
  | x :: xs, y :: ys => Json.beq x y && Json.beqList xs ys
  | _, _ => false

def Json.beqObj : List (String × Json) → List (String × Json) → Bool
  | [], [] => true
  | (k₁, v₁) :: xs, (k₂, v₂) :: ys => k₁ = k₂ && Json.beq v₁ v₂ && Json.beqObj xs ys
  | _, _ => false

end

mutual

def Json.beq_iff : ∀ (a b : Json), Json.beq a b = true ↔ a = b
  | .null, .null => by simp [Json.beq]
  | .bool a, .bool b => by simp [Json.beq]
  | .num a, .num b => by simp [Json.beq]
  | .str a, .str b => by simp [Json.beq]
  | .arr xs, .arr ys => by simp [Json.beq, Json.beqList_iff xs ys]
  | .obj xs, .obj ys => by simp [Json.beq, Json.beqObj_iff xs ys]
  | .null, .bool _ | .null, .num _ | .null, .str _ | .null, .arr _ | .null, .obj _
  | .bool _, .null | .bool _, .num _ | .bool _, .str _ | .bool _, .arr _ | .bool _, .obj _
  | .num _, .null | .num _, .bool _ | .num _, .str _ | .num _, .arr _ | .num _, .obj _
  | .str _, .null | .str _, .bool _ | .str _, .num _ | .str _, .arr _ | .str _, .obj _
  | .arr _, .null | .arr _, .bool _ | .arr _, .num _ | .arr _, .str _ | .arr _, .obj _
  | .obj _, .null | .obj _, .bool _ | .obj _, .num _ | .obj _, .str _ | .obj _, .arr _ => by
      simp [Json.beq]

def Json.beqList_iff : ∀ (xs ys : List Json), Json.beqList xs ys = true ↔ xs = ys
  | [], [] => by simp [Json.beqList]
  | x :: xs, y :: ys => by
      simp [Json.beqList, Json.beq_iff x y, Json.beqList_iff xs ys]
  | [], _ :: _ => by simp [Json.beqList]
  | _ :: _, [] => by simp [Json.beqList]

def Json.beqObj_iff : ∀ (xs ys : List (String × Json)), Json.beqObj xs ys = true ↔ xs = ys
  | [], [] => by simp [Json.beqObj]
  | (k₁, v₁) :: xs, (k₂, v₂) :: ys => by
      simp [Json.beqObj, Json.beq_iff v₁ v₂, Json.beqObj_iff xs ys]
  | [], _ :: _ => by simp [Json.beqObj]
  | _ :: _, [] => by simp [Json.beqObj]

end

instance : DecidableEq Json := fun a b => decidable_of_iff _ (Json.beq_iff a b)

/-- The Python exception classes that can escape the code paths modelled
here (the source only catches `requests.RequestException` and, inside the
extractor, `Exception`). -/
inductive PyError where
  | attributeError : PyError
  | typeError : PyError
  | keyError : PyError
deriving DecidableEq, Repr

instance {ε α : Type} [DecidableEq ε] [DecidableEq α] : DecidableEq (Except ε α) :=
  fun a b =>
    match a, b with
    | .error e₁, .error e₂ =>
        if h : e₁ = e₂ then .isTrue (by rw [h]) else .isFalse (by simp [h])
    | .ok v₁, .ok v₂ =>
        if h : v₁ = v₂ then .isTrue (by rw [h]) else .isFalse (by simp [h])
    | .error _, .ok _ => .isFalse (by simp)
    | .ok _, .error _ => .isFalse (by simp)

/-- Outcome of one `requests.get` call, see the module docstring. -/
inductive HttpResult where
  | failure : HttpResult
  | success (body : Json) : HttpResult

/-- `dict.get(k)` at the raw JSON level: the stored value of key `k`,
`none` when the key is absent.  Keys of a decoded JSON object are unique,
so first match is the match. -/
def pyGetD (fields : List (String × Json)) (k : String) : Option Json :=
  (fields.find? (fun p => p.1 = k)).map Prod.snd

/-- Python truthiness of a decoded JSON value. -/
def pyTruthy : Json → Bool
  | .null => false
  | .bool b => b
  | .num n => n ≠ 0
  | .str s => s ≠ ""
  | .arr l => !l.isEmpty
  | .obj f => !f.isEmpty

/-- Truthiness of the Python value of `dict.get(k)` (an absent key gives
`None`, which is falsy, as is a stored JSON `null`). -/
def pyTruthyO : Option Json → Bool
  | none => false
  | some v => pyTruthy v

/-- The Python-level value of `dict.get(k)`: a stored JSON `null` decodes
to `None`, indistinguishable from an absent key. -/
def pyO : Option Json → Option Json
  | some .null => none
  | x => x

/-- Models the test `dict.get(k) is not None`. -/
def pyIsNotNone (v : Option Json) : Bool := (pyO v).isSome

/-- Whether a Python value may be a `dict` key (lists and dicts are
unhashable; using one as a key raises `TypeError`). -/
def pyHashable : Json → Bool
  | .arr _ => false
  | .obj _ => false
  | _ => true

def isPfx : List Char → List Char → Bool
  | [], _ => true
  | _ :: _, [] => false
  | a :: as, b :: bs => a = b && isPfx as bs

def containsSub (needle : List Char) : List Char → Bool
  | [] => isPfx needle []
  | c :: t => isPfx needle (c :: t) || containsSub needle t

/-- The Python membership test `k in j` for a string `k`: key lookup on a
dict, element comparison on a list, substring test on a string, and a
`TypeError` on values that are not containers. -/
def pyContains (j : Json) (k : String) : Except PyError Bool :=
  match j with
  | .obj f => .ok (f.any (fun p => p.1 = k))
  | .arr l => .ok (l.any (fun v => v = Json.str k))
  | .str s => .ok (containsSub k.toList s.toList)
  | _ => .error .typeError

/-- The Python subscript `j[k]` for a string `k`: `KeyError` when a dict
lacks the key, `TypeError` on anything that is not a dict. -/
def pySubscr (j : Json) (k : String) : Except PyError Json :=
  match j with
  | .obj f =>
      match pyGetD f k with
      | some v => .ok v
      | none => .error .keyError
  | _ => .error .typeError

/-- Python iteration `for x in j`: the elements of a list, the characters
of a string (as one-character strings), the keys of a dict, and a
`TypeError` otherwise. -/
def iterElems : Json → Except PyError (List Json)
  | .arr l => .ok l
  | .str s => .ok (s.toList.map (fun c => Json.str (String.mk [c])))
  | .obj f => .ok (f.map (fun p => Json.str p.1))
  | _ => .error .typeError

/-! ## String processing: `str.strip` and `str.split(",")` -/

def wsC (c : Char) : Bool := c.isWhitespace

def stripFront (l : List Char) : List Char := l.dropWhile wsC

def stripBack (l : List Char) : List Char := (l.reverse.dropWhile wsC).reverse

def stripL (l : List Char) : List Char := stripBack (stripFront l)

/-- Python `str.strip()` (whitespace on both ends removed). -/
def pyStrip (s : String) : String := ⟨stripL s.toList⟩

/-- Python `str.split(",")` at the character-list level.  The empty string
splits to one empty piece, matching Python. -/
def splitCommaL : List Char → List (List Char)
  | [] => [[]]
  | c :: cs =>
    if c = ',' then [] :: splitCommaL cs
    else
      match splitCommaL cs with
      | [] => [[c]]
      | h :: t => (c :: h) :: t

/-- Python `str.split(",")`. -/
def pySplitComma (s : String) : List String :=
  (splitCommaL s.toList).map (fun l => (⟨l⟩ : String))

/-- A string carries no leading and no trailing whitespace. -/
def noEdgeWS (s : String) : Bool :=
  (match s.toList.head? with | some c => !wsC c | none => true) &&
  (match s.toList.getLast? with | some c => !wsC c | none => true)

/-! ## Channel discovery (`get_channels`) -/

/-- The hardcoded fallback channel list of `get_channels`, in source
order. -/
def fallback_channels : List String := [
  "36kr", "51cto", "acfun", "baidu", "bilibili", "coolapk", "csdn",
  "douban-group", "douban-movie", "douyin", "earthquake", "genshin",
  "hellogithub", "history", "honkai", "hupu", "huxiu", "ifanr",
  "ithome-xijiayi", "ithome", "jianshu", "juejin", "lol", "netease-news",
  "ngabbs", "nodeseek", "qq-news", "sina-news", "sina", "sspai",
  "starrail", "thepaper", "tieba", "toutiao", "v2ex", "weatheralarm",
  "weibo", "weread", "zhihu-daily", "zhihu"
]

/-- The filter in the discovery loop:
`route.get("path") is not None and not route.get("message")`. -/
def routeAvail (f : List (String × Json)) : Bool :=
  pyIsNotNone (pyGetD f "path") && !(pyTruthyO (pyGetD f "message"))

/-- The loop `for route in routes` of `get_channels`: appends
`route.get("name")` (a Python value, possibly `None`) for every available
route, and raises `AttributeError` on a route that is not a dict. -/
def collectRoutes : List Json → Except PyError (List (Option Json))
  | [] => .ok []
  | .obj f :: rs =>
      match collectRoutes rs with
      | .error e => .error e
      | .ok rest =>
          if routeAvail f then .ok (pyO (pyGetD f "name") :: rest) else .ok rest
  | _ :: _ => .error .attributeError

/-- `get_channels`: on a request failure, the hardcoded fallback list; on a
decoded body, the check `data.get("code") != 200 or "routes" not in data`
returns `[]`, otherwise the filtered route names.  A body that is not a
JSON object makes `data.get` raise `AttributeError`, which the function
does not catch. -/
def get_channels : HttpResult → Except PyError (List (Option Json))
  | .failure => .ok (fallback_channels.map (fun s => some (Json.str s)))
  | .success (.obj fields) =>
      match pyGetD fields "routes" with
      | none => .ok []
      | some routesVal =>
          if pyGetD fields "code" = some (Json.num 200) then
            match iterElems routesVal with
            | .error e => .error e
            | .ok routes => collectRoutes routes
          else .ok []
  | .success _ => .error .attributeError

/-! ## Hotlist fetch (`get_hotlist_data`) -/

/-- `get_hotlist_data`: the decoded body on success, `{}` on any
`RequestException`. -/
def get_hotlist_data : HttpResult → Json
  | .failure => .obj []
  | .success body => body

/-! ## Keyword extraction (`extract_keywords_with_google_llm`) -/

/-- What the LLM call produced, see the module docstring. -/
inductive LlmOutcome where
  | exn : LlmOutcome
  | noText : LlmOutcome
  | text (s : String) : LlmOutcome
deriving DecidableEq, Repr

/-- The response parsing of the extractor:
`[k.strip() for k in response.text.strip().split(",") if k.strip()]`. -/
def parse_keywords (s : String) : List String :=
  ((pySplitComma (pyStrip s)).map pyStrip).filter (fun k => k ≠ "")

/-- `extract_keywords_with_google_llm`.  When the API key is absent the
function returns `[]` before touching the SDK, so the result does not
depend on the `LlmOutcome` oracle (no network I/O is attempted).  All
exceptions inside the `try` block, and a response without text, also give
`[]`. -/
def extract_keywords_with_google_llm (apiKeySet : Bool) (llm : LlmOutcome) : List String :=
  if apiKeySet then
    match llm with
    | .exn => []
    | .noText => []
    | .text s => parse_keywords s
  else []

/-! ## Orchestrator (`main`) -/

/-- The upstream responses one run can observe: the per-channel hotlist
response and the LLM response for a given combined text. -/
structure World where
  hotlist : String → HttpResult
  llm : String → LlmOutcome

/-- The text built from one hotlist item:
`item.get("title", "")`, extended by a space and `item.get("desc")` when
the latter is truthy.  String concatenation with a non-string raises
`TypeError`; `.get` on a non-dict item raises `AttributeError`.  A
non-string `item_text` without a desc is detected later, at join time. -/
def itemText (item : Json) : Except PyError Json :=
  match item with
  | .obj f =>
      let t : Json := match pyGetD f "title" with | none => Json.str "" | some v => v
      match pyGetD f "desc" with
      | none => .ok t
      | some d =>
          if pyTruthy d then
            match d, t with
            | .str ds, .str ts => .ok (Json.str (ts ++ " " ++ ds))
            | _, _ => .error .typeError
          else .ok t
  | _ => .error .attributeError

def mapExcept {α β : Type} (f : α → Except PyError β) : List α → Except PyError (List β)
  | [] => .ok []
  | x :: xs =>
      match f x with
      | .error e => .error e
      | .ok y =>
          match mapExcept f xs with
          | .error e => .error e
          | .ok ys => .ok (y :: ys)

/-- Python `"\n".join(l)` on a list of strings. -/
def joinNL : List String → String
  | [] => ""
  | [s] => s
  | s :: r :: rest => s ++ "\n" ++ joinNL (r :: rest)

def asStr : Json → Except PyError String
  | .str s => .ok s
  | _ => .error .typeError

/-- `"\n".join(channel_texts)`: `TypeError` when an element is not a
string. -/
def joinStrs (l : List Json) : Except PyError String :=
  match mapExcept asStr l with
  | .error e => .error e
  | .ok strs => .ok (joinNL strs)

/-- The combined channel text handed to the extractor: every item text,
newline-joined. -/
def combinedText (items : List Json) : Except PyError String :=
  match mapExcept itemText items with
  | .error e => .error e
  | .ok texts => joinStrs texts

/-- The skip test of the main loop:
`not hotlist_data or "data" not in hotlist_data or not hotlist_data["data"]`
(short-circuit order preserved). `ok true` means the channel proceeds. -/
def skipTest (hot : Json) : Except PyError Bool :=
  if pyTruthy hot then
    match pyContains hot "data" with
    | .error e => .error e
    | .ok false => .ok false
    | .ok true =>
        match pySubscr hot "data" with
        | .error e => .error e
        | .ok v => .ok (pyTruthy v)
  else .ok false

/-- `hotlist_data.get("title", hotlist_data.get("name", channel))`, the
display name used as result key. -/
def displayKey (hot : Json) (channel : String) : Except PyError Json :=
  match hot with
  | .obj f => .ok ((pyGetD f "title").getD ((pyGetD f "name").getD (Json.str channel)))
  | _ => .error .attributeError

/-- The result mapping `all_channel_keywords`, as an insertion-ordered
association list (Python dict semantics). -/
abbrev RMap := List (Json × List String)

/-- Python `d[k] = v`: updates the value in place when the key exists,
appends otherwise. -/
def dictInsert (m : RMap) (k : Json) (v : List String) : RMap :=
  if m.any (fun p => p.1 = k) then m.map (fun p => if p.1 = k then (k, v) else p)
  else m ++ [(k, v)]

def mapKeys (m : RMap) : List Json := m.map Prod.fst

/-- One iteration of the main loop for channel `c`, up to but excluding
the dict write: `ok none` when the channel is skipped (no data) or the
extractor returned no keywords, `ok (some (key, kws))` when the channel
contributes the entry `key ↦ kws`, `error` when an uncaught exception
escapes the iteration. -/
def channelOutcome (apiKeySet : Bool) (w : World) (c : String) :
    Except PyError (Option (Json × List String)) :=
  let hot := get_hotlist_data (w.hotlist c)
  match skipTest hot with
  | .error e => .error e
  | .ok false => .ok none
  | .ok true =>
      match displayKey hot c with
      | .error e => .error e
      | .ok key =>
          match pySubscr hot "data" with
          | .error e => .error e
          | .ok dataV =>
              match iterElems dataV with
              | .error e => .error e
              | .ok items =>
                  match combinedText items with
                  | .error e => .error e
                  | .ok combined =>
                      match extract_keywords_with_google_llm apiKeySet (w.llm combined) with
                      | [] => .ok none
                      | k₀ :: ks =>
                          if pyHashable key then .ok (some (key, k₀ :: ks))
                          else .error .typeError

/-- One iteration of the main loop including the dict write. -/
def mainStep (apiKeySet : Bool) (w : World) (m : RMap) (c : String) : Except PyError RMap :=
  match channelOutcome apiKeySet w c with
  | .error e => .error e
  | .ok none => .ok m
  | .ok (some (k, v)) => .ok (dictInsert m k v)

/-- The sequential per-channel loop of `main`, starting from accumulator
`m`. -/
def mainRunFrom (apiKeySet : Bool) (w : World) : RMap → List String → Except PyError RMap
  | m, [] => .ok m
  | m, c :: cs =>
      match mainStep apiKeySet w m c with
      | .error e => .error e
      | .ok m₂ => mainRunFrom apiKeySet w m₂ cs

/-- The whole main loop over the resolved channel list. -/
def mainRun (apiKeySet : Bool) (w : World) (channels : List String) : Except PyError RMap :=
  mainRunFrom apiKeySet w [] channels

/-- The final emission: the mapping is printed as JSON only when it is
non-empty; on an empty mapping nothing reaches stdout. -/
def emitOutput (m : RMap) : Option RMap :=
  if m.isEmpty then none else some m

/-- Channel resolution in `main`: `if args.channel:` is a truthiness test,
so only a non-empty explicit channel bypasses discovery.  The second
component records whether `get_channels` was invoked. -/
def resolveChannels (argChannel : Option String) (discovery : HttpResult) :
    Except PyError (List (Option Json)) × Bool :=
  match argChannel with
  | some c => if c ≠ "" then (.ok [some (Json.str c)], false) else (get_channels discovery, true)
  | none => (get_channels discovery, true)

/-! ## Definitions following the words of the spec (for refinement claims) -/

/-- Modelled from the spec: parse the LLM response by splitting on commas,
trimming surrounding whitespace from each piece, discarding empty pieces,
preserving order. -/
def specSplitTrim (s : String) : List String :=
  ((pySplitComma s).map pyStrip).filter (fun k => k ≠ "")

/-- Modelled from the spec: the text of one item is `title`, extended by a
single space and `desc` when `desc` is present and non-empty (stated for
items whose fields are strings). -/
def specItemText : Json → String
  | .obj f =>
      let t := match pyGetD f "title" with | some (.str s) => s | _ => ""
      (match pyGetD f "desc" with
       | some (.str d) => if d ≠ "" then t ++ " " ++ d else t
       | _ => t)
  | _ => ""

/-- An item of the shape the data model of the spec describes: a JSON
object whose `title` and `desc` fields, when present, are strings. -/
def wellShapedItem : Json → Bool
  | .obj f =>
      (match pyGetD f "title" with | none => true | some (.str _) => true | some _ => false) &&
      (match pyGetD f "desc" with | none => true | some (.str _) => true | some _ => false)
  | _ => false

/-- Whether a route keeps a place in the discovery output, and under which
name: `some name` for available routes, `none` for filtered ones or
non-objects. -/
def routeKeep : Json → Option (Option Json)
  | .obj f => if routeAvail f then some (pyO (pyGetD f "name")) else none
  | _ => none

/-- Discovery outcomes on which `get_channels` provably returns instead of
raising: any request failure, and any JSON-object body whose `routes`
value, when the `code`/`routes` check passes, is a sequence of route
objects. -/
def safeShape : HttpResult → Bool
  | .failure => true
  | .success (.obj fields) =>
      (match pyGetD fields "routes" with
       | none => true
       | some v =>
           if pyGetD fields "code" = some (Json.num 200) then
             match v with
             | .arr rs => rs.all (fun r => match r with | .obj _ => true | _ => false)
             | _ => false
           else true)
  | .success _ => false

/-! ## Concrete worlds used by witnesses and counterexamples -/

/-- A run in which channels "a" and "b" resolve to the same display name
"X"; the extractor returns nothing for the text "t" of channel "a" and the
keyword "k" for the text "u" of channel "b". -/
def wDup : World :=
  { hotlist := fun c =>
      if c = "a" then
        .success (.obj [("title", .str "X"), ("data", .arr [.obj [("title", .str "t")]])])
      else
        .success (.obj [("title", .str "X"), ("data", .arr [.obj [("title", .str "u")]])])
    llm := fun t => if t = "t" then .noText else .text "k" }

/-- A run in which channels "a" and "b" both fully succeed and resolve to
the same display name "X", with distinct keyword lists. -/
def wBoth : World :=
  { hotlist := fun c =>
      if c = "a" then
        .success (.obj [("title", .str "X"), ("data", .arr [.obj [("title", .str "t")]])])
      else
        .success (.obj [("title", .str "X"), ("data", .arr [.obj [("title", .str "u")]])])
    llm := fun t => if t = "t" then .text "k1" else .text "k2" }

/-- A world in which every request fails and the LLM always raises. -/
def wFail : World :=
  { hotlist := fun _ => .failure
    llm := fun _ => .exn }

/-! ## Theorems -/

theorem collectRoutes_eq (rs : List Json) (h : ∀ r ∈ rs, ∃ f, r = Json.obj f) :
    collectRoutes rs = .ok (rs.filterMap routeKeep) := by
  induction rs with
  | nil => rfl
  | cons r rs ih =>
      obtain ⟨f, rfl⟩ := h r (by simp)
      have ih2 := ih (fun x hx => h x (by simp [hx]))
      simp only [collectRoutes, ih2, List.filterMap_cons, routeKeep]
      split <;> simp

/-- C1, counterexample: on the outcome "top-level code ≠ 200" the function
returns the empty list, not the fallback list; and the fallback list has
40 entries, not 39. -/
theorem c1_counterexample :
    get_channels (.success (.obj [("code", Json.num 500)])) = .ok [] ∧
    get_channels (.success (.obj [("code", Json.num 500)])) ≠
      .ok (fallback_channels.map (fun s => some (Json.str s))) ∧
    fallback_channels.length = 40 ∧ fallback_channels.length ≠ 39 :=
  ⟨by decide, by decide, by decide, by decide⟩

/-- C1, amended: on a transport-level failure (bad HTTP status,
network/timeout error, malformed body) `get_channels` returns the fixed
fallback list, which has exactly 40 identifiers, in its defined order; on
a well-formed JSON-object body with `code ≠ 200` or a missing `routes`
field it instead returns the empty list. -/
theorem c1_discovery_failure :
    get_channels .failure = .ok (fallback_channels.map (fun s => some (Json.str s))) ∧
    fallback_channels.length = 40 ∧
    (∀ fields : List (String × Json),
      (pyGetD fields "code" ≠ some (Json.num 200) ∨ pyGetD fields "routes" = none) →
      get_channels (.success (.obj fields)) = .ok []) := by
  refine ⟨rfl, by decide, ?_⟩
  intro fields h
  rcases h with h | h
  · cases hr : pyGetD fields "routes" with
    | none => simp [get_channels, hr]
    | some v => simp [get_channels, hr, h]
  · simp [get_channels, h]

theorem c1_discovery_failure_witness :
    fallback_channels.length = 40 ∧
    get_channels (.success (.obj [("code", Json.num 500)])) = .ok [] :=
  ⟨c1_discovery_failure.2.1,
   c1_discovery_failure.2.2 [("code", Json.num 500)] (Or.inl (by decide))⟩

/-- C2, counterexample: a successful response whose body is the JSON
number 5 makes `data.get("code")` raise `AttributeError`, which escapes
`get_channels`; and a JSON-object body failing the code check makes the
returned list empty. -/
theorem c2_counterexample :
    get_channels (.success (.num 5)) = .error .attributeError ∧
    get_channels (.success (.obj [("code", Json.num 200)])) = .ok [] :=
  ⟨rfl, by decide⟩

/-- C2, amended: `get_channels` returns a list (no exception escapes) on
every request failure and on every JSON-object body whose `routes` value,
when the `code`/`routes` check passes, is a sequence of route objects; the
returned list may be empty (for example on `code ≠ 200`, a missing
`routes` field, or no available route).  For other body shapes (a
non-object body, a non-sequence `routes`, a non-object route) an uncaught
exception can escape. -/
theorem c2_returns_list (hr : HttpResult) (h : safeShape hr = true) :
    ∃ l, get_channels hr = .ok l := by
  match hr with
  | .failure => exact ⟨_, rfl⟩
  | .success (.obj fields) =>
      cases hrv : pyGetD fields "routes" with
      | none => exact ⟨[], by simp [get_channels, hrv]⟩
      | some v =>
          by_cases hc : pyGetD fields "code" = some (Json.num 200)
          · simp only [safeShape, hrv, hc, if_true] at h
            match v, h with
            | .arr rs, h =>
                have hobj : ∀ r ∈ rs, ∃ f, r = Json.obj f := by
                  intro r hrr
                  have hx := List.all_eq_true.mp h r hrr
                  match r, hx with
                  | .obj f, _ => exact ⟨f, rfl⟩
                refine ⟨rs.filterMap routeKeep, ?_⟩
                simp [get_channels, hrv, hc, iterElems, collectRoutes_eq rs hobj]
          · exact ⟨[], by simp [get_channels, hrv, hc]⟩
  | .success .null => simp [safeShape] at h
  | .success (.bool _) => simp [safeShape] at h
  | .success (.num _) => simp [safeShape] at h
  | .success (.str _) => simp [safeShape] at h
  | .success (.arr _) => simp [safeShape] at h

theorem c2_returns_list_witness : ∃ l, get_channels .failure = .ok l :=
  c2_returns_list .failure rfl

/-- C8: for every valid discovery response (object body, code 200, routes
a sequence of route objects) the returned value is exactly the source-order
filter-map keeping, for each route with a present non-null `path` and an
absent-or-falsy `message`, the Python value of its `name` field; so a
route name appears iff the route is available, order preserved. -/
theorem c8_route_filter (fields : List (String × Json)) (routes : List Json)
    (hcode : pyGetD fields "code" = some (Json.num 200))
    (hroutes : pyGetD fields "routes" = some (Json.arr routes))
    (hobj : ∀ r ∈ routes, ∃ f, r = Json.obj f) :
    get_channels (.success (.obj fields)) = .ok (routes.filterMap routeKeep) := by
  simp [get_channels, hroutes, hcode, iterElems, collectRoutes_eq routes hobj]

theorem c8_route_filter_witness :
    get_channels (.success (.obj [("code", Json.num 200),
      ("routes", Json.arr [Json.obj [("name", Json.str "zhihu"), ("path", Json.str "/zhihu")]])])) =
      .ok [some (Json.str "zhihu")] := by
  have h := c8_route_filter
    [("code", Json.num 200),
     ("routes", Json.arr [Json.obj [("name", Json.str "zhihu"), ("path", Json.str "/zhihu")]])]
    [Json.obj [("name", Json.str "zhihu"), ("path", Json.str "/zhihu")]]
    (by decide) (by decide)
    (by intro r hr; simp at hr; subst hr; exact ⟨_, rfl⟩)
  rw [h]
  decide

/-- C4, counterexample: an explicitly supplied empty-string channel does
not give the one-element channel set; the truthiness test sends it to
discovery, which is invoked (second component true). -/
theorem c4_counterexample :
    resolveChannels (some "") HttpResult.failure = (get_channels .failure, true) ∧
    resolveChannels (some "") HttpResult.failure ≠ (.ok [some (Json.str "")], false) :=
  ⟨rfl, by decide⟩

/-- C4, amended: for every non-empty explicit channel string the resolved
channel set is exactly the one-element list holding that string, and
discovery is not invoked; the empty string falls through to discovery. -/
theorem c4_explicit_channel (c : String) (h : c ≠ "") (d : HttpResult) :
    resolveChannels (some c) d = (.ok [some (Json.str c)], false) := by
  simp [resolveChannels, h]

theorem c4_explicit_channel_witness :
    resolveChannels (some "weibo") HttpResult.failure = (.ok [some (Json.str "weibo")], false) :=
  c4_explicit_channel "weibo" (by decide) HttpResult.failure

/-- C7: a failed hotlist fetch returns the empty object, and the main
loop then leaves the accumulated mapping unchanged for that channel, so
the channel contributes nothing to the final mapping. -/
theorem c7_hotlist_failure :
    get_hotlist_data .failure = Json.obj [] ∧
    ∀ (a : Bool) (w : World) (m : RMap) (c : String),
      w.hotlist c = .failure → mainStep a w m c = .ok m := by
  refine ⟨rfl, ?_⟩
  intro a w m c h
  simp [mainStep, channelOutcome, h, get_hotlist_data, skipTest, pyTruthy]

theorem c7_hotlist_failure_witness : mainStep true wFail [] "zhihu" = .ok [] :=
  c7_hotlist_failure.2 true wFail [] "zhihu" rfl

/-! ## Lemmas about strip and split -/

theorem dropWhile_head_not (p : Char → Bool) (l : List Char) :
    ∀ c : Char, (l.dropWhile p).head? = some c → p c = false := by
  induction l with
  | nil => intro c h; simp [List.dropWhile] at h
  | cons x xs ih =>
      intro c h
      by_cases hp : p x
      · rw [List.dropWhile_cons, if_pos hp] at h
        exact ih c h
      · rw [List.dropWhile_cons, if_neg hp] at h
        simp at h
        rw [← h]
        simpa using hp

theorem dropWhile_suffix_decomp (p : Char → Bool) (l : List Char) :
    ∃ t, t ++ l.dropWhile p = l := by
  induction l with
  | nil => exact ⟨[], rfl⟩
  | cons x xs ih =>
      by_cases hp : p x
      · obtain ⟨t, ht⟩ := ih
        exact ⟨x :: t, by simp [List.dropWhile_cons, hp, ht]⟩
      · exact ⟨[], by simp [List.dropWhile_cons, hp]⟩

theorem stripBack_getLast_not (l : List Char) (c : Char)
    (h : (stripBack l).getLast? = some c) : wsC c = false := by
  unfold stripBack at h
  rw [List.getLast?_reverse] at h
  exact dropWhile_head_not wsC _ c h

theorem stripBack_head (m : List Char) (c : Char)
    (h : (stripBack m).head? = some c) : m.head? = some c := by
  obtain ⟨t, ht⟩ := dropWhile_suffix_decomp wsC m.reverse
  have hm : stripBack m ++ t.reverse = m := by
    have h2 := congrArg List.reverse ht
    simpa [stripBack, List.reverse_append] using h2
  rw [← hm]
  cases hsb : stripBack m with
  | nil => rw [hsb] at h; simp at h
  | cons a rest =>
      rw [hsb] at h
      simp at h
      simp [List.cons_append, h]

theorem strip_head_not (l : List Char) (c : Char)
    (h : (stripL l).head? = some c) : wsC c = false := by
  have h2 := stripBack_head (stripFront l) c h
  exact dropWhile_head_not wsC l c h2

theorem strip_getLast_not (l : List Char) (c : Char)
    (h : (stripL l).getLast? = some c) : wsC c = false :=
  stripBack_getLast_not (stripFront l) c h

theorem noEdgeWS_strip (l : List Char) : noEdgeWS ⟨stripL l⟩ = true := by
  unfold noEdgeWS
  rw [Bool.and_eq_true]
  have ht : (String.mk (stripL l)).toList = stripL l := rfl
  refine ⟨?_, ?_⟩
  · rw [ht]
    cases hh : (stripL l).head? with
    | none => rfl
    | some c => simp [strip_head_not l c hh]
  · rw [ht]
    cases hh : (stripL l).getLast? with
    | none => rfl
    | some c => simp [strip_getLast_not l c hh]

theorem splitCommaL_ne_nil (l : List Char) : splitCommaL l ≠ [] := by
  match l with
  | [] => simp [splitCommaL]
  | c :: cs =>
      unfold splitCommaL
      split
      · simp
      · split <;> simp

theorem ws_ne_comma {c : Char} (h : wsC c = true) : ¬ c = ',' := by
  intro hc
  subst hc
  exact absurd h (by decide)

theorem stripL_cons_ws {c : Char} (h : wsC c = true) (l : List Char) :
    stripL (c :: l) = stripL l := by
  simp [stripL, stripFront, List.dropWhile_cons, h]

theorem stripBack_append_ws {c : Char} (h : wsC c = true) (l : List Char) :
    stripBack (l ++ [c]) = stripBack l := by
  simp [stripBack, List.reverse_append, List.dropWhile_cons, h]

theorem stripL_append_ws {c : Char} (h : wsC c = true) :
    ∀ l : List Char, stripL (l ++ [c]) = stripL l := by
  intro l
  induction l with
  | nil => simp [stripL, stripFront, stripBack, List.dropWhile_cons, h]
  | cons a as ih =>
      by_cases ha : wsC a
      · rw [List.cons_append, stripL_cons_ws ha, ih, stripL_cons_ws ha]
      · have h1 : stripL ((a :: as) ++ [c]) = stripBack ((a :: as) ++ [c]) := by
          simp [stripL, stripFront, List.cons_append, List.dropWhile_cons, ha]
        have h2 : stripL (a :: as) = stripBack (a :: as) := by
          simp [stripL, stripFront, List.dropWhile_cons, ha]
        rw [h1, h2, stripBack_append_ws h]

theorem splitCommaL_append (c : Char) (hc : ¬ c = ',') :
    ∀ x : List Char, ∃ h t, splitCommaL x = t ++ [h] ∧ splitCommaL (x ++ [c]) = t ++ [h ++ [c]] := by
  intro x
  induction x with
  | nil => exact ⟨[], [], by simp [splitCommaL], by simp [splitCommaL, hc]⟩
  | cons a as ih =>
      obtain ⟨h, t, h1, h2⟩ := ih
      by_cases ha : a = ','
      · subst ha
        refine ⟨h, [] :: t, ?_, ?_⟩
        · simp [splitCommaL, h1]
        · simp [splitCommaL, h2]
      · cases t with
        | nil =>
            simp at h1 h2
            refine ⟨a :: h, [], ?_, ?_⟩
            · simp [splitCommaL, ha, h1]
            · simp [splitCommaL, ha, h2]
        | cons t0 ts =>
            refine ⟨h, (a :: t0) :: ts, ?_, ?_⟩
            · simp only [List.cons_append] at h1
              simp [splitCommaL, ha, h1]
            · simp only [List.cons_append] at h2
              simp [splitCommaL, ha, h2]

theorem mapStrip_split_append_ws {c : Char} (h : wsC c = true) (x : List Char) :
    (splitCommaL (x ++ [c])).map stripL = (splitCommaL x).map stripL := by
  obtain ⟨p, t, h1, h2⟩ := splitCommaL_append c (ws_ne_comma h) x
  rw [h1, h2, List.map_append, List.map_append]
  simp [stripL_append_ws h]

theorem mapStrip_split_stripFront (l : List Char) :
    (splitCommaL (stripFront l)).map stripL = (splitCommaL l).map stripL := by
  induction l with
  | nil => rfl
  | cons a as ih =>
      by_cases ha : wsC a
      · rw [show stripFront (a :: as) = stripFront as from by
          simp [stripFront, List.dropWhile_cons, ha]]
        rw [ih]
        cases e : splitCommaL as with
        | nil => exact absurd e (splitCommaL_ne_nil as)
        | cons hd tl =>
            have ha2 : ¬ a = ',' := ws_ne_comma ha
            rw [show splitCommaL (a :: as) = (a :: hd) :: tl from by
              simp [splitCommaL, ha2, e]]
            simp [stripL_cons_ws ha]
      · rw [show stripFront (a :: as) = a :: as from by
          simp [stripFront, List.dropWhile_cons, ha]]

theorem mapStrip_split_revDrop (r : List Char) :
    (splitCommaL ((r.dropWhile wsC).reverse)).map stripL =
      (splitCommaL r.reverse).map stripL := by
  induction r with
  | nil => rfl
  | cons c rs ih =>
      by_cases hc : wsC c
      · rw [List.dropWhile_cons, if_pos hc, ih,
          show (c :: rs).reverse = rs.reverse ++ [c] from by simp,
          mapStrip_split_append_ws hc]
      · rw [List.dropWhile_cons, if_neg hc]

theorem mapStrip_split_stripL (l : List Char) :
    (splitCommaL (stripL l)).map stripL = (splitCommaL l).map stripL := by
  have hb : stripL l = (((stripFront l).reverse).dropWhile wsC).reverse := rfl
  rw [hb]
  have h2 := mapStrip_split_revDrop ((stripFront l).reverse)
  rw [List.reverse_reverse] at h2
  rw [h2]
  exact mapStrip_split_stripFront l

/-- C5: the extractor parses an LLM response by splitting on commas,
trimming each piece, discarding empty pieces and preserving order (the
leading `.strip()` of the source is redundant, so the code equals the
algorithm the spec words state); every returned element is non-empty with
no leading or trailing whitespace; and the spec example evaluates as
claimed. -/
theorem c5_keyword_parsing :
    (∀ s, extract_keywords_with_google_llm true (.text s) = specSplitTrim s) ∧
    (∀ s k, k ∈ extract_keywords_with_google_llm true (.text s) →
      k ≠ "" ∧ noEdgeWS k = true) ∧
    extract_keywords_with_google_llm true (.text "AI, 芯片 , 发布会,") =
      ["AI", "芯片", "发布会"] := by
  have hmaps : ∀ M : List (List Char),
      ((M.map (fun l => (⟨l⟩ : String))).map pyStrip) =
        (M.map stripL).map (fun l => (⟨l⟩ : String)) := by
    intro M
    rw [List.map_map, List.map_map]
    rfl
  have hparse : ∀ s, parse_keywords s = specSplitTrim s := by
    intro s
    unfold parse_keywords specSplitTrim pySplitComma
    rw [hmaps, hmaps]
    have ht : (pyStrip s).toList = stripL s.toList := rfl
    rw [ht, mapStrip_split_stripL]
  refine ⟨?_, ?_, by decide⟩
  · intro s
    simpa [extract_keywords_with_google_llm] using hparse s
  · intro s k hk
    have hk2 : k ∈ parse_keywords s := by
      simpa [extract_keywords_with_google_llm] using hk
    unfold parse_keywords at hk2
    rw [List.mem_filter] at hk2
    obtain ⟨hmem, hne⟩ := hk2
    rw [List.mem_map] at hmem
    obtain ⟨x, hx, rfl⟩ := hmem
    refine ⟨by simpa using hne, ?_⟩
    show noEdgeWS (pyStrip x) = true
    exact noEdgeWS_strip x.toList

theorem c5_keyword_parsing_witness :
    ("AI" : String) ≠ "" ∧ noEdgeWS "AI" = true :=
  c5_keyword_parsing.2.1 "AI, 芯片 , 发布会," "AI" (by decide)

/-! ## Lemmas about the main loop -/

theorem channelOutcome_some_ne_nil {a : Bool} {w : World} {c : String} {k : Json}
    {v : List String} (h : channelOutcome a w c = .ok (some (k, v))) : v ≠ [] := by
  simp only [channelOutcome] at h
  repeat' split at h
  all_goals try simp_all
  all_goals (rcases h with ⟨h1, h2⟩; subst h2; simp)

theorem mem_mapKeys_dictInsert (m : RMap) (k : Json) (v : List String) (x : Json) :
    x ∈ mapKeys (dictInsert m k v) ↔ x ∈ mapKeys m ∨ x = k := by
  unfold dictInsert mapKeys
  by_cases hm : m.any (fun p => p.1 = k)
  · rw [if_pos hm]
    have hkeys : (m.map (fun p => if p.1 = k then (k, v) else p)).map Prod.fst =
        m.map Prod.fst := by
      rw [List.map_map]
      refine List.map_congr_left ?_
      intro p hp
      show Prod.fst (if p.1 = k then (k, v) else p) = p.1
      by_cases hpk : p.1 = k <;> simp [hpk]
    rw [hkeys]
    have hk : k ∈ m.map Prod.fst := by
      rw [List.any_eq_true] at hm
      obtain ⟨p, hp, hpe⟩ := hm
      simp at hpe
      exact List.mem_map.mpr ⟨p, hp, hpe⟩
    constructor
    · exact Or.inl
    · rintro (hx | rfl)
      · exact hx
      · exact hk
  · rw [if_neg hm]
    simp

theorem mainRunFrom_mem (a : Bool) (w : World) :
    ∀ (cs : List String) (m₀ m : RMap), mainRunFrom a w m₀ cs = .ok m →
    ∀ k, k ∈ mapKeys m ↔
      (k ∈ mapKeys m₀ ∨ ∃ c ∈ cs, ∃ v, channelOutcome a w c = .ok (some (k, v))) := by
  intro cs
  induction cs with
  | nil =>
      intro m₀ m h k
      simp [mainRunFrom] at h
      subst h
      simp
  | cons c cs ih =>
      intro m₀ m h k
      unfold mainRunFrom mainStep at h
      cases ho : channelOutcome a w c with
      | error e => rw [ho] at h; exact absurd h (by simp)
      | ok o =>
          rw [ho] at h
          cases o with
          | none =>
              simp at h
              rw [ih m₀ m h k]
              constructor
              · rintro (h1 | ⟨c2, hc2, hv⟩)
                · exact Or.inl h1
                · exact Or.inr ⟨c2, List.mem_cons_of_mem c hc2, hv⟩
              · rintro (h1 | ⟨c2, hc2, v, hv⟩)
                · exact Or.inl h1
                · rcases List.mem_cons.mp hc2 with rfl | hc3
                  · rw [ho] at hv
                    simp at hv
                  · exact Or.inr ⟨c2, hc3, v, hv⟩
          | some kv =>
              obtain ⟨k₀, v₀⟩ := kv
              simp at h
              rw [ih _ m h k, mem_mapKeys_dictInsert]
              constructor
              · rintro ((h1 | rfl) | ⟨c2, hc2, v, hv⟩)
                · exact Or.inl h1
                · exact Or.inr ⟨c, List.mem_cons_self c cs, v₀, ho⟩
                · exact Or.inr ⟨c2, List.mem_cons_of_mem c hc2, v, hv⟩
              · rintro (h1 | ⟨c2, hc2, v, hv⟩)
                · exact Or.inl (Or.inl h1)
                · rcases List.mem_cons.mp hc2 with rfl | hc3
                  · rw [ho] at hv
                    simp at hv
                    exact Or.inl (Or.inr hv.1.symm)
                  · exact Or.inr ⟨c2, hc3, v, hv⟩

/-- C3, counterexample: channels "a" and "b" share the display name "X";
channel "a" passes the fetch and data checks but its extraction returns no
keywords, so it contributes nothing, yet the key "X" is present in the
final mapping (written by channel "b").  Presence of the display-name key
is therefore not equivalent to that channel having fully succeeded. -/
theorem c3_counterexample :
    mainRun true wDup ["a", "b"] = .ok [(Json.str "X", ["k"])] ∧
    displayKey (get_hotlist_data (wDup.hotlist "a")) "a" = .ok (Json.str "X") ∧
    channelOutcome true wDup "a" = .ok none ∧
    extract_keywords_with_google_llm true (wDup.llm "t") = [] ∧
    ¬ ((Json.str "X" ∈ mapKeys [(Json.str "X", ["k"])]) ↔
        channelOutcome true wDup "a" ≠ .ok none) :=
  ⟨by decide, by decide, by decide, by decide, by decide⟩

/-- C3, amended: in every run that terminates normally, a channel that
fully succeeds (fetch passed the data checks and the extractor returned a
non-empty list) has its display-name key present in the final mapping, and
every key of the final mapping was contributed by some fully succeeding
channel with that display name, always together with its complete
non-empty keyword list (all-or-nothing).  The per-channel "present iff
succeeded" biconditional of the claim holds only when display names do
not collide (see the counterexample). -/
theorem c3_result_mapping (a : Bool) (w : World) (cs : List String) (m : RMap)
    (h : mainRun a w cs = .ok m) :
    (∀ c ∈ cs, ∀ k v, channelOutcome a w c = .ok (some (k, v)) →
        v ≠ [] ∧ k ∈ mapKeys m) ∧
    (∀ k, k ∈ mapKeys m →
        ∃ c ∈ cs, ∃ v, channelOutcome a w c = .ok (some (k, v)) ∧ v ≠ []) := by
  have hmem := mainRunFrom_mem a w cs [] m h
  constructor
  · intro c hc k v hv
    refine ⟨channelOutcome_some_ne_nil hv, ?_⟩
    rw [hmem k]
    exact Or.inr ⟨c, hc, v, hv⟩
  · intro k hk
    rcases (hmem k).mp hk with h1 | ⟨c, hc, v, hv⟩
    · simp [mapKeys] at h1
    · exact ⟨c, hc, v, hv, channelOutcome_some_ne_nil hv⟩

theorem c3_result_mapping_witness :
    (["k"] : List String) ≠ [] ∧ Json.str "X" ∈ mapKeys [(Json.str "X", ["k"])] :=
  (c3_result_mapping true wDup ["a", "b"] [(Json.str "X", ["k"])] (by decide)).1 "b"
    (by decide) (Json.str "X") ["k"] (by decide)

/-- C10: when two successive channels contribute the same display-name
key, the later write overwrites the earlier entry in place, so the final
mapping holds the later keyword list and has one entry for the two
successfully extracted channels. -/
theorem c10_overwrite (a : Bool) (w : World) (c₁ c₂ : String) (k : Json)
    (v₁ v₂ : List String)
    (h₁ : channelOutcome a w c₁ = .ok (some (k, v₁)))
    (h₂ : channelOutcome a w c₂ = .ok (some (k, v₂))) :
    mainRun a w [c₁, c₂] = .ok [(k, v₂)] ∧ ([(k, v₂)] : RMap).length = 1 := by
  refine ⟨?_, rfl⟩
  simp [mainRun, mainRunFrom, mainStep, h₁, h₂, dictInsert]

theorem c10_overwrite_witness :
    mainRun true wBoth ["a", "b"] = .ok [(Json.str "X", ["k2"])] ∧
    ([(Json.str "X", ["k2"])] : RMap).length = 1 :=
  c10_overwrite true wBoth "a" "b" (Json.str "X") ["k1"] ["k2"] (by decide) (by decide)

theorem channelOutcome_noKey (w : World) (c : String) :
    ∀ r, channelOutcome false w c = .ok r → r = none := by
  intro r h
  simp only [channelOutcome, extract_keywords_with_google_llm] at h
  repeat' split at h
  all_goals simp_all

theorem mainRunFrom_apiKeyFalse (w : World) :
    ∀ (cs : List String) (m₀ m : RMap), mainRunFrom false w m₀ cs = .ok m → m = m₀ := by
  intro cs
  induction cs with
  | nil =>
      intro m₀ m h
      simp [mainRunFrom] at h
      exact h.symm
  | cons c cs ih =>
      intro m₀ m h
      unfold mainRunFrom mainStep at h
      cases ho : channelOutcome false w c with
      | error e => rw [ho] at h; simp at h
      | ok o =>
          have hnone := channelOutcome_noKey w c o ho
          subst hnone
          rw [ho] at h
          simp at h
          exact ih m₀ m h

/-- C6: without a configured API credential every extraction call returns
the empty list for every possible LLM oracle (the oracle is never
consulted, so no network I/O is attempted), and every normally terminating
run accumulates the empty mapping and prints nothing to stdout. -/
theorem c6_no_credential :
    (∀ o : LlmOutcome, extract_keywords_with_google_llm false o = []) ∧
    (∀ (w : World) (cs : List String) (m : RMap),
      mainRun false w cs = .ok m → m = [] ∧ emitOutput m = none) := by
  refine ⟨fun o => rfl, ?_⟩
  intro w cs m h
  have hm := mainRunFrom_apiKeyFalse w cs [] m h
  subst hm
  exact ⟨rfl, rfl⟩

theorem c6_no_credential_witness : ([] : RMap) = [] ∧ emitOutput [] = none :=
  c6_no_credential.2 wBoth ["a"] [] (by decide)

/-! ## Lemmas about the channel text -/

theorem itemText_wellShaped : ∀ item : Json, wellShapedItem item = true →
    itemText item = .ok (Json.str (specItemText item)) := by
  intro item h
  match item with
  | .obj f =>
      simp only [wellShapedItem, Bool.and_eq_true] at h
      obtain ⟨ht, hd⟩ := h
      simp only [itemText, specItemText]
      cases e1 : pyGetD f "title" with
      | none =>
          cases e2 : pyGetD f "desc" with
          | none => simp
          | some d =>
              rw [e2] at hd
              match d, hd with
              | .str ds, _ =>
                  by_cases hds : ds = ""
                  · subst hds
                    simp [pyTruthy]
                  · simp [pyTruthy, hds]
      | some t =>
          rw [e1] at ht
          match t, ht with
          | .str ts, _ =>
              cases e2 : pyGetD f "desc" with
              | none => simp
              | some d =>
                  rw [e2] at hd
                  match d, hd with
                  | .str ds, _ =>
                      by_cases hds : ds = ""
                      · subst hds
                        simp [pyTruthy]
                      · simp [pyTruthy, hds]

theorem mapExcept_itemText (items : List Json) (h : items.all wellShapedItem = true) :
    mapExcept itemText items = .ok (items.map (fun i => Json.str (specItemText i))) := by
  induction items with
  | nil => rfl
  | cons i is ih =>
      rw [List.all_cons, Bool.and_eq_true] at h
      obtain ⟨h1, h2⟩ := h
      simp [mapExcept, itemText_wellShaped i h1, ih h2]

theorem joinStrs_strs (strs : List String) :
    joinStrs (strs.map Json.str) = .ok (joinNL strs) := by
  have hm : mapExcept asStr (strs.map Json.str) = .ok strs := by
    induction strs with
    | nil => rfl
    | cons s ss ih => simp [mapExcept, asStr, ih]
  simp [joinStrs, hm]

/-- C9: for every hotlist item list of the shape the data model gives
(string `title`, optional string `desc`), the channel text handed to the
extractor is the newline-join over the items of `title`, extended by one
space and `desc` exactly when `desc` is present and non-empty. -/
theorem c9_channel_text (items : List Json) (h : items.all wellShapedItem = true) :
    combinedText items = .ok (joinNL (items.map specItemText)) := by
  unfold combinedText
  rw [mapExcept_itemText items h]
  have hmap : items.map (fun i => Json.str (specItemText i)) =
      (items.map specItemText).map Json.str := by
    rw [List.map_map]
    rfl
  show joinStrs (items.map (fun i => Json.str (specItemText i))) =
    .ok (joinNL (items.map specItemText))
  rw [hmap, joinStrs_strs]

theorem c9_channel_text_witness :
    combinedText [Json.obj [("title", Json.str "A"), ("desc", Json.str "B")],
      Json.obj [("title", Json.str "C")]] = .ok "A B\nC" := by
  have h := c9_channel_text
    [Json.obj [("title", Json.str "A"), ("desc", Json.str "B")],
     Json.obj [("title", Json.str "C")]] (by decide)
  rw [h]
  decide
